import Mathlib

/-
Shallow embedding of the TWIM (I2C master) driver in
src/nrf-hal-common/src/twim.rs.

Each blocking operation is modelled as a pure function from its inputs and
a hardware-response oracle to the ordered trace of peripheral register and
task writes it performs, together with its result.  The hardware-controlled
observations the driver makes (the address-NACK flag read after a burst,
the txd.amount / rxd.amount registers, and the bytes a receive burst
deposits into the destination buffer) are supplied by the oracle: the
driver's busy-wait loops terminate exactly when the corresponding event
fires, so one oracle record per burst captures every observable outcome.

The platform constants EASY_DMA_SIZE and FORCE_COPY_BUFFER_SIZE live in
target_constants (per-chip, fixed at build time per the spec); they are
passed as explicit parameters easyDmaSize and cap.
-/

namespace Twim

/-- Transaction outcome kinds, from the Error enum in twim.rs. -/
inductive Error where
  | TxBufferTooLong
  | RxBufferTooLong
  | Transmit
  | Receive
  | DMABufferNotInDataMemory
  | AddressNack
deriving DecidableEq, Repr

/-- One write to a peripheral register or task register, in program order.
Reads (event polls, errorsrc, amount) mutate nothing and are not traced;
their observed values come from the oracle. -/
inductive RegAction where
  | writeAddress : Nat → RegAction
  | writeTxdPtr : Nat → RegAction
  | writeTxdMaxcnt : Nat → RegAction
  | writeRxdPtr : Nat → RegAction
  | writeRxdMaxcnt : Nat → RegAction
  | clearAnack : RegAction
  | startTx : RegAction
  | startRx : RegAction
  | stop : RegAction
  | clearEventLastTx : RegAction
  | clearEventLastRx : RegAction
  | clearEventStopped : RegAction
deriving DecidableEq, Repr

/-- A caller-supplied source buffer: an abstract base address, its bytes,
and whether it satisfies the RAM-residency predicate (slice_in_ram, which
lives outside src; the driver only branches on its boolean verdict, so it
is modelled as an attribute of the buffer). -/
structure Buffer where
  ptr : Nat
  data : List Nat
  inRam : Bool
deriving DecidableEq, Repr

/-- Hardware response observed around one transmit burst: whether the
errorsrc.anack flag is set when the driver reads it after the wait loop,
and the value of txd.amount. -/
structure TxResp where
  nack : Bool
  amount : Nat
deriving DecidableEq, Repr

/-- Hardware response observed around one receive burst: the anack flag
(consulted only by read), the value of rxd.amount, and the destination
buffer contents after the DMA burst. -/
structure RxResp where
  nack : Bool
  amount : Nat
  received : List Nat
deriving DecidableEq, Repr

/-- Twim::write (twim.rs lines 101-172): residency check, size check,
then program address and the transmit descriptor, clear anack, start the
transmit burst, wait, clear the event, stop, wait, clear, then the
address-NACK check followed by the transferred-amount check. -/
def write (addr : Nat) (buffer : Buffer) (easyDmaSize : Nat) (resp : TxResp) :
    List RegAction × Except Error Unit :=
  if buffer.inRam = false then
    ([], .error .DMABufferNotInDataMemory)
  else if buffer.data.length > easyDmaSize then
    ([], .error .TxBufferTooLong)
  else
    ([.writeAddress addr, .writeTxdPtr buffer.ptr, .writeTxdMaxcnt buffer.data.length,
      .clearAnack, .startTx, .clearEventLastTx, .stop, .clearEventStopped],
     if resp.nack then .error .AddressNack
     else if resp.amount ≠ buffer.data.length then .error .Transmit
     else .ok ())

/-- Twim::read (twim.rs lines 178-253): no residency check (a mutable
slice is always in RAM), size check, program address and the receive
descriptor, clear anack, start the receive burst, wait, clear, stop,
wait, clear, then the NACK check followed by the amount check.  The third
component is the destination buffer contents after the call. -/
def read (addr : Nat) (rdPtr : Nat) (rdData : List Nat) (easyDmaSize : Nat)
    (resp : RxResp) :
    List RegAction × Except Error Unit × List Nat :=
  if rdData.length > easyDmaSize then
    ([], .error .RxBufferTooLong, rdData)
  else
    ([.writeAddress addr, .writeRxdPtr rdPtr, .writeRxdMaxcnt rdData.length,
      .clearAnack, .startRx, .clearEventLastRx, .stop, .clearEventStopped],
     (if resp.nack then .error .AddressNack
      else if resp.amount ≠ rdData.length then .error .Receive
      else .ok ()),
     resp.received)

/-- Twim::write_then_read (twim.rs lines 260-385): residency check on the
source, both size checks, program address and both DMA descriptors, clear
anack, start the transmit burst and wait.  If the anack flag is set after
the transmit wait, issue stop, wait for stopped, clear it, and return
AddressNack with the destination untouched; otherwise start the receive
burst (no stop in between), wait, stop, wait, clear all three events, then
check the transmit amount before the receive amount.  The third component
is the destination buffer contents after the call. -/
def write_then_read (addr : Nat) (wrBuffer : Buffer) (rdPtr : Nat)
    (rdData : List Nat) (easyDmaSize : Nat) (txResp : TxResp) (rxResp : RxResp) :
    List RegAction × Except Error Unit × List Nat :=
  if wrBuffer.inRam = false then
    ([], .error .DMABufferNotInDataMemory, rdData)
  else if wrBuffer.data.length > easyDmaSize then
    ([], .error .TxBufferTooLong, rdData)
  else if rdData.length > easyDmaSize then
    ([], .error .RxBufferTooLong, rdData)
  else
    let hdr : List RegAction :=
      [.writeAddress addr, .writeTxdPtr wrBuffer.ptr,
       .writeTxdMaxcnt wrBuffer.data.length, .writeRxdPtr rdPtr,
       .writeRxdMaxcnt rdData.length, .clearAnack, .startTx, .clearEventLastTx]
    if txResp.nack then
      (hdr ++ [.stop, .clearEventStopped], .error .AddressNack, rdData)
    else
      (hdr ++ [.startRx, .clearEventLastRx, .stop, .clearEventLastTx,
               .clearEventLastRx, .clearEventStopped],
       (if txResp.amount ≠ wrBuffer.data.length then .error .Transmit
        else if rxResp.amount ≠ rdData.length then .error .Receive
        else .ok ()),
       rxResp.received)

/-- Semantics of Rust slice::chunks(c): ceil(len / c) windows of size c,
the last possibly shorter.  (chunks(0) panics in Rust; here c = 0 yields
no chunks, and every theorem touching chunk structure assumes 0 < c.) -/
def chunksOf (c : Nat) (l : List Nat) : List (List Nat) :=
  (List.range ((l.length + c - 1) / c)).map (fun i => (l.drop (i * c)).take c)

/-- The per-chunk loop of Twim::copy_write_then_read (twim.rs lines
434-470).  State: chunk index i (for the oracle), the scratch buffer
contents.  Per chunk: copy the chunk into the front of the scratch
buffer, program the transmit descriptor with the scratch pointer and the
FULL scratch length (wr_buffer.len(), not chunk.len() — this is what the
source writes), start the transmit burst, wait on events_lasttx only,
clear it, and compare txd.amount to the full scratch length, stopping the
loop with a Transmit failure on mismatch.  Returns the trace, whether the
loop completed without failure, and the final scratch contents. -/
def cwtrChunkLoop (scratchPtr cap : Nat) (amounts : Nat → Nat) :
    Nat → List Nat → List (List Nat) → List RegAction × Bool × List Nat
  | _, scratch, [] => ([], true, scratch)
  | i, scratch, chunk :: rest =>
    let scratch1 := chunk ++ scratch.drop chunk.length
    let tr : List RegAction :=
      [.writeTxdPtr scratchPtr, .writeTxdMaxcnt cap, .startTx, .clearEventLastTx]
    if amounts i ≠ cap then
      (tr, false, scratch1)
    else
      let r := cwtrChunkLoop scratchPtr cap amounts (i + 1) scratch1 rest
      (tr ++ r.1, r.2.1, r.2.2)

/-- Twim::copy_write_then_read (twim.rs lines 392-501): size check on the
destination only (no residency or size check on the source), program
address and the receive descriptor once up front, stack-allocate a
zeroed scratch buffer of FORCE_COPY_BUFFER_SIZE (cap) bytes, run the
chunk loop over tx_buffer.chunks(cap), and if it completed, start the
receive burst, wait, stop, wait, clear, and check rxd.amount (the anack
flag is never cleared nor read anywhere in this function).  The oracle
amounts gives txd.amount after each chunk burst.  The third component is
the destination buffer contents after the call. -/
def copy_write_then_read (addr : Nat) (txData : List Nat) (rdPtr : Nat)
    (rdData : List Nat) (easyDmaSize cap scratchPtr : Nat)
    (amounts : Nat → Nat) (rxResp : RxResp) :
    List RegAction × Except Error Unit × List Nat :=
  if rdData.length > easyDmaSize then
    ([], .error .RxBufferTooLong, rdData)
  else
    let hdr : List RegAction :=
      [.writeAddress addr, .writeRxdPtr rdPtr, .writeRxdMaxcnt rdData.length]
    let loop := cwtrChunkLoop scratchPtr cap amounts 0 (List.replicate cap 0)
        (chunksOf cap txData)
    if loop.2.1 = false then
      (hdr ++ loop.1, .error .Transmit, rdData)
    else
      (hdr ++ loop.1 ++ [.startRx, .clearEventLastRx, .stop, .clearEventStopped],
       (if rxResp.amount ≠ rdData.length then .error .Receive else .ok ()),
       rxResp.received)

/-- The chunked fallback loop of the embedded-hal Write adapter (twim.rs
lines 519-524): stack-allocate a zeroed FORCE_COPY_BUFFER_SIZE scratch
buffer, and for each chunk of the source copy it into the scratch buffer
and call Twim::write on buf[..chunk.len()], propagating the first error. -/
def ehWriteGo (addr scratchPtr easyDmaSize : Nat) (resps : Nat → TxResp) :
    Nat → List Nat → List (List Nat) → List RegAction × Except Error Unit
  | _, _, [] => ([], .ok ())
  | i, buf, chunk :: rest =>
    let buf1 := chunk ++ buf.drop chunk.length
    let w := write addr ⟨scratchPtr, buf1.take chunk.length, true⟩ easyDmaSize (resps i)
    match w.2 with
    | .error e => (w.1, .error e)
    | .ok _ =>
      let r := ehWriteGo addr scratchPtr easyDmaSize resps (i + 1) buf1 rest
      (w.1 ++ r.1, r.2)

/-- The embedded_hal::blocking::i2c::Write adapter (twim.rs lines
515-526): if the source is in RAM call Twim::write directly, otherwise
run the chunk-copy loop of write calls. -/
def ehWrite (addr : Nat) (bytes : Buffer) (easyDmaSize cap scratchPtr : Nat)
    (resps : Nat → TxResp) : List RegAction × Except Error Unit :=
  if bytes.inRam then
    write addr bytes easyDmaSize (resps 0)
  else
    ehWriteGo addr scratchPtr easyDmaSize resps 0 (List.replicate cap 0)
      (chunksOf cap bytes.data)

/-- The embedded_hal::blocking::i2c::Read adapter (twim.rs lines
535-537): always delegates to Twim::read. -/
def ehRead (addr : Nat) (rdPtr : Nat) (rdData : List Nat) (easyDmaSize : Nat)
    (resp : RxResp) : List RegAction × Except Error Unit × List Nat :=
  read addr rdPtr rdData easyDmaSize resp

/-- The embedded_hal::blocking::i2c::WriteRead adapter (twim.rs lines
546-557): if the source is in RAM call Twim::write_then_read, otherwise
Twim::copy_write_then_read. -/
def ehWriteRead (addr : Nat) (bytes : Buffer) (rdPtr : Nat) (rdData : List Nat)
    (easyDmaSize cap scratchPtr : Nat) (txResp : TxResp) (amounts : Nat → Nat)
    (rxResp : RxResp) : List RegAction × Except Error Unit × List Nat :=
  if bytes.inRam then
    write_then_read addr bytes rdPtr rdData easyDmaSize txResp rxResp
  else
    copy_write_then_read addr bytes.data rdPtr rdData easyDmaSize cap scratchPtr
      amounts rxResp

/-- The peripheral register file the handle owns; only the registers
named by the release claim are tracked (they are written by new and by
nothing else in the operations above, which act on a borrowed handle). -/
structure Periph where
  enable : Nat
  pselScl : Nat
  pselSda : Nat
  frequency : Nat
deriving DecidableEq, Repr

/-- The owned handle: struct Twim of twim.rs, wrapping the peripheral. -/
structure Handle where
  periph : Periph
deriving DecidableEq, Repr

/-- Twim::free (twim.rs lines 504-506): consume the handle and return the
wrapped peripheral; the register-action trace it emits is empty. -/
def free (t : Handle) : List RegAction × Periph :=
  ([], t.periph)

/-- Recognises a write to the tasks_stop register. -/
def isStop : RegAction → Bool
  | .stop => true
  | _ => false

/-- Recognises a write to the rxd.ptr register. -/
def isRxdPtrWrite : RegAction → Bool
  | .writeRxdPtr _ => true
  | _ => false

/-- Recognises a write to the rxd.maxcnt register. -/
def isRxdMaxcntWrite : RegAction → Bool
  | .writeRxdMaxcnt _ => true
  | _ => false

/-- One write call per chunk with the chunk's bytes behind the scratch
pointer: the specification-level description of the chunked fallback loop
of the embedded-hal Write adapter, to be compared with ehWriteGo. -/
def writeSeq (addr scratchPtr easyDmaSize : Nat) (resps : Nat → TxResp) :
    Nat → List (List Nat) → List RegAction × Except Error Unit
  | _, [] => ([], .ok ())
  | i, chunk :: rest =>
    let w := write addr ⟨scratchPtr, chunk, true⟩ easyDmaSize (resps i)
    match w.2 with
    | .error e => (w.1, .error e)
    | .ok _ =>
      let r := writeSeq addr scratchPtr easyDmaSize resps (i + 1) rest
      (w.1 ++ r.1, r.2)

/-- Every action emitted by the chunk loop of copy_write_then_read is a
transmit-descriptor write, the transmit start task, or the clear of the
last-transmit event. -/
theorem cwtrChunkLoop_actions (sp cap : Nat) (am : Nat → Nat)
    (l : List (List Nat)) : ∀ (i : Nat) (scratch : List Nat),
    ∀ a ∈ (cwtrChunkLoop sp cap am i scratch l).1,
      a = RegAction.writeTxdPtr sp ∨ a = RegAction.writeTxdMaxcnt cap ∨
      a = RegAction.startTx ∨ a = RegAction.clearEventLastTx := by
  induction l with
  | nil =>
    intro i scratch a ha
    simp [cwtrChunkLoop] at ha
  | cons chunk rest ih =>
    intro i scratch a ha
    simp only [cwtrChunkLoop] at ha
    split at ha
    · simp only [List.mem_cons, List.not_mem_nil, or_false] at ha
      tauto
    · simp only [List.mem_append, List.mem_cons, List.not_mem_nil, or_false] at ha
      rcases ha with h | h
      · tauto
      · exact ih (i + 1) (chunk ++ scratch.drop chunk.length) a h

/-- Claim C10: free consumes the handle and returns the underlying
peripheral without any register action, so the enable, pin-select and
frequency registers keep their prior values. -/
theorem free_no_register_effects (t : Handle) :
    free t = ([], t.periph) ∧
    (free t).2.enable = t.periph.enable ∧
    (free t).2.pselScl = t.periph.pselScl ∧
    (free t).2.pselSda = t.periph.pselSda ∧
    (free t).2.frequency = t.periph.frequency :=
  ⟨rfl, rfl, rfl, rfl, rfl⟩

/-- Claim C10 witness: the theorem applied to a concrete handle. -/
theorem free_no_register_effects_witness :
    free ⟨⟨1, 2, 3, 4⟩⟩ = ([], ⟨1, 2, 3, 4⟩) :=
  (free_no_register_effects ⟨⟨1, 2, 3, 4⟩⟩).1

/-- Claim C1, evaluation at the failing input: a 1-byte source with
scratch capacity 255, where the hardware transfers exactly the 1
requested byte.  The code programs txd.maxcnt with the full scratch
length 255 (never with the chunk length 1) and compares txd.amount
against 255, so it returns Transmit even though the chunk transferred
completely — contradicting the claimed per-chunk length programming and
checking. -/
theorem cwtr_full_scratch_length_eval :
    (copy_write_then_read 80 [1] 7 [] 255 255 9 (fun _ => 1)
        ⟨false, 0, []⟩).2.1 = Except.error Error.Transmit ∧
    RegAction.writeTxdMaxcnt 255 ∈
      (copy_write_then_read 80 [1] 7 [] 255 255 9 (fun _ => 1)
        ⟨false, 0, []⟩).1 ∧
    RegAction.writeTxdMaxcnt 1 ∉
      (copy_write_then_read 80 [1] 7 [] 255 255 9 (fun _ => 1)
        ⟨false, 0, []⟩).1 :=
  ⟨rfl, by decide, by decide⟩

/-- Claim C3: with a non-RAM-resident source buffer, write and
write_then_read return DMABufferNotInDataMemory with an empty register
trace (so in particular no start task), while read can never return
DMABufferNotInDataMemory for any input (it has no residency check). -/
theorem nonresident_source_checks (addr : Nat) (buffer : Buffer)
    (easyDmaSize : Nat) (resp : TxResp) (rdPtr : Nat) (rdData : List Nat)
    (txResp : TxResp) (rxResp : RxResp)
    (hr : buffer.inRam = false) :
    write addr buffer easyDmaSize resp =
      ([], Except.error Error.DMABufferNotInDataMemory) ∧
    write_then_read addr buffer rdPtr rdData easyDmaSize txResp rxResp =
      ([], Except.error Error.DMABufferNotInDataMemory, rdData) ∧
    ∀ (a p e : Nat) (d : List Nat) (r : RxResp),
      (read a p d e r).2.1 ≠ Except.error Error.DMABufferNotInDataMemory := by
  refine ⟨by simp [write, hr], by simp [write_then_read, hr], ?_⟩
  intro a p e d r
  unfold read
  split
  · simp
  · split
    · simp
    · split <;> simp

/-- Claim C3 witness: a concrete non-resident one-byte buffer. -/
theorem nonresident_source_checks_witness :
    write 80 ⟨4096, [1], false⟩ 255 ⟨false, 1⟩ =
      ([], Except.error Error.DMABufferNotInDataMemory) ∧
    write_then_read 80 ⟨4096, [1], false⟩ 7 [0, 0] 255 ⟨false, 1⟩
        ⟨false, 2, [5, 6]⟩ =
      ([], Except.error Error.DMABufferNotInDataMemory, [0, 0]) ∧
    (read 80 7 [0, 0] 255 ⟨false, 2, [5, 6]⟩).2.1 ≠
      Except.error Error.DMABufferNotInDataMemory := by
  have h := nonresident_source_checks 80 ⟨4096, [1], false⟩ 255 ⟨false, 1⟩ 7
    [0, 0] ⟨false, 1⟩ ⟨false, 2, [5, 6]⟩ rfl
  exact ⟨h.1, h.2.1, h.2.2 80 7 255 [0, 0] ⟨false, 2, [5, 6]⟩⟩

/-- Claim C4: with a RAM-resident source longer than EASY_DMA_SIZE, write
returns TxBufferTooLong with an empty register trace; with a destination
longer than EASY_DMA_SIZE, read returns RxBufferTooLong with an empty
register trace and the destination untouched. -/
theorem too_long_preflight (addr : Nat) (buffer : Buffer) (easyDmaSize : Nat)
    (resp : TxResp) (rdPtr : Nat) (rdData : List Nat) (rxResp : RxResp)
    (hr : buffer.inRam = true)
    (hw : buffer.data.length > easyDmaSize)
    (hd : rdData.length > easyDmaSize) :
    write addr buffer easyDmaSize resp = ([], Except.error Error.TxBufferTooLong) ∧
    read addr rdPtr rdData easyDmaSize rxResp =
      ([], Except.error Error.RxBufferTooLong, rdData) := by
  exact ⟨by simp [write, hr, hw], by simp [read, hd]⟩

/-- Claim C4 witness: three-byte buffers against a burst maximum of 2. -/
theorem too_long_preflight_witness :
    write 80 ⟨4096, [1, 2, 3], true⟩ 2 ⟨false, 3⟩ =
      ([], Except.error Error.TxBufferTooLong) ∧
    read 80 7 [0, 0, 0] 2 ⟨false, 3, [5, 5, 5]⟩ =
      ([], Except.error Error.RxBufferTooLong, [0, 0, 0]) :=
  too_long_preflight 80 ⟨4096, [1, 2, 3], true⟩ 2 ⟨false, 3⟩ 7 [0, 0, 0]
    ⟨false, 3, [5, 5, 5]⟩ rfl (by decide) (by decide)

/-- Claim C5: once write passes its pre-flight checks, a recorded NACK
yields AddressNack (even if the amount also mismatches), otherwise an
amount mismatch yields Transmit, and the call returns Ok exactly when no
NACK was recorded and txd.amount equals the buffer length. -/
theorem write_check_order (addr : Nat) (buffer : Buffer) (easyDmaSize : Nat)
    (resp : TxResp)
    (hr : buffer.inRam = true)
    (hw : buffer.data.length ≤ easyDmaSize) :
    (resp.nack = true →
      (write addr buffer easyDmaSize resp).2 = Except.error Error.AddressNack) ∧
    (resp.nack = false → resp.amount ≠ buffer.data.length →
      (write addr buffer easyDmaSize resp).2 = Except.error Error.Transmit) ∧
    ((write addr buffer easyDmaSize resp).2 = Except.ok () ↔
      resp.nack = false ∧ resp.amount = buffer.data.length) := by
  have hw2 : ¬ buffer.data.length > easyDmaSize := Nat.not_lt.mpr hw
  refine ⟨fun hn => by simp [write, hr, hw2, hn],
          fun hn ha => by simp [write, hr, hw2, hn, ha], ?_⟩
  constructor
  · intro h
    by_cases hn : resp.nack
    · simp [write, hr, hw2, hn] at h
    · by_cases ha : resp.amount = buffer.data.length
      · exact ⟨Bool.not_eq_true resp.nack ▸ hn, ha⟩
      · simp [write, hr, hw2, hn, ha] at h
  · rintro ⟨hn, ha⟩
    simp [write, hr, hw2, hn, ha]

/-- Claim C5 witness: nack forces AddressNack even with a short amount at
one concrete input; a clean full transfer returns Ok at another. -/
theorem write_check_order_witness :
    (write 80 ⟨4096, [1, 2, 3], true⟩ 255 ⟨true, 0⟩).2 =
      Except.error Error.AddressNack ∧
    (write 80 ⟨4096, [1, 2, 3], true⟩ 255 ⟨false, 3⟩).2 = Except.ok () := by
  have h1 := write_check_order 80 ⟨4096, [1, 2, 3], true⟩ 255 ⟨true, 0⟩ rfl
    (by decide)
  have h2 := write_check_order 80 ⟨4096, [1, 2, 3], true⟩ 255 ⟨false, 3⟩ rfl
    (by decide)
  exact ⟨h1.1 rfl, h2.2.2.mpr ⟨rfl, rfl⟩⟩

/-- Claim C2: when the address-NACK flag is set during the transmit phase
of write_then_read (after the pre-flight checks passed), the stop task is
issued exactly once, the receive start task is never issued, the
destination buffer is unchanged, and the call returns AddressNack. -/
theorem write_then_read_nack (addr : Nat) (wrBuffer : Buffer) (rdPtr : Nat)
    (rdData : List Nat) (easyDmaSize : Nat) (txResp : TxResp) (rxResp : RxResp)
    (hr : wrBuffer.inRam = true)
    (hw : wrBuffer.data.length ≤ easyDmaSize)
    (hd : rdData.length ≤ easyDmaSize)
    (hn : txResp.nack = true) :
    List.countP isStop
      (write_then_read addr wrBuffer rdPtr rdData easyDmaSize txResp rxResp).1 = 1 ∧
    RegAction.startRx ∉
      (write_then_read addr wrBuffer rdPtr rdData easyDmaSize txResp rxResp).1 ∧
    (write_then_read addr wrBuffer rdPtr rdData easyDmaSize txResp rxResp).2.2 =
      rdData ∧
    (write_then_read addr wrBuffer rdPtr rdData easyDmaSize txResp rxResp).2.1 =
      Except.error Error.AddressNack := by
  have hw2 : ¬ wrBuffer.data.length > easyDmaSize := Nat.not_lt.mpr hw
  have hd2 : ¬ rdData.length > easyDmaSize := Nat.not_lt.mpr hd
  refine ⟨?_, ?_, ?_, ?_⟩ <;>
    simp [write_then_read, hr, hw2, hd2, hn, isStop, List.countP_cons]

/-- Claim C2 witness: a NACK on a concrete two-phase transaction. -/
theorem write_then_read_nack_witness :
    List.countP isStop
      (write_then_read 32 ⟨4096, [170], true⟩ 7 [0, 0, 0, 0] 255 ⟨true, 0⟩
        ⟨false, 4, [9, 9, 9, 9]⟩).1 = 1 ∧
    RegAction.startRx ∉
      (write_then_read 32 ⟨4096, [170], true⟩ 7 [0, 0, 0, 0] 255 ⟨true, 0⟩
        ⟨false, 4, [9, 9, 9, 9]⟩).1 ∧
    (write_then_read 32 ⟨4096, [170], true⟩ 7 [0, 0, 0, 0] 255 ⟨true, 0⟩
        ⟨false, 4, [9, 9, 9, 9]⟩).2.2 = [0, 0, 0, 0] ∧
    (write_then_read 32 ⟨4096, [170], true⟩ 7 [0, 0, 0, 0] 255 ⟨true, 0⟩
        ⟨false, 4, [9, 9, 9, 9]⟩).2.1 = Except.error Error.AddressNack :=
  write_then_read_nack 32 ⟨4096, [170], true⟩ 7 [0, 0, 0, 0] 255 ⟨true, 0⟩
    ⟨false, 4, [9, 9, 9, 9]⟩ rfl (by decide) (by decide) rfl

/-- Claim C6: when write_then_read runs both phases without a NACK, a
transmit-amount mismatch returns Transmit regardless of the receive
amount, and Receive is returned exactly when the transmit amount matched
and the receive amount did not. -/
theorem write_then_read_transmit_priority (addr : Nat) (wrBuffer : Buffer)
    (rdPtr : Nat) (rdData : List Nat) (easyDmaSize : Nat) (txResp : TxResp)
    (rxResp : RxResp)
    (hr : wrBuffer.inRam = true)
    (hw : wrBuffer.data.length ≤ easyDmaSize)
    (hd : rdData.length ≤ easyDmaSize)
    (hn : txResp.nack = false) :
    (txResp.amount ≠ wrBuffer.data.length →
      (write_then_read addr wrBuffer rdPtr rdData easyDmaSize txResp rxResp).2.1 =
        Except.error Error.Transmit) ∧
    ((write_then_read addr wrBuffer rdPtr rdData easyDmaSize txResp rxResp).2.1 =
        Except.error Error.Receive ↔
      txResp.amount = wrBuffer.data.length ∧ rxResp.amount ≠ rdData.length) := by
  have hw2 : ¬ wrBuffer.data.length > easyDmaSize := Nat.not_lt.mpr hw
  have hd2 : ¬ rdData.length > easyDmaSize := Nat.not_lt.mpr hd
  refine ⟨fun ha => by simp [write_then_read, hr, hw2, hd2, hn, ha], ?_⟩
  constructor
  · intro h
    by_cases ha : txResp.amount = wrBuffer.data.length
    · by_cases hb : rxResp.amount = rdData.length
      · simp [write_then_read, hr, hw2, hd2, hn, ha, hb] at h
      · exact ⟨ha, hb⟩
    · simp [write_then_read, hr, hw2, hd2, hn, ha] at h
  · rintro ⟨ha, hb⟩
    simp [write_then_read, hr, hw2, hd2, hn, ha, hb]

/-- Claim C6 witness: both amounts mismatch at one concrete input and the
result is Transmit, not Receive. -/
theorem write_then_read_transmit_priority_witness :
    (write_then_read 32 ⟨4096, [170, 171], true⟩ 7 [0, 0, 0] 255 ⟨false, 1⟩
      ⟨false, 1, [9, 9, 9]⟩).2.1 = Except.error Error.Transmit ∧
    ¬ ((write_then_read 32 ⟨4096, [170, 171], true⟩ 7 [0, 0, 0] 255 ⟨false, 1⟩
      ⟨false, 1, [9, 9, 9]⟩).2.1 = Except.error Error.Receive) := by
  have h := write_then_read_transmit_priority 32 ⟨4096, [170, 171], true⟩ 7
    [0, 0, 0] 255 ⟨false, 1⟩ ⟨false, 1, [9, 9, 9]⟩ rfl (by decide) (by decide) rfl
  refine ⟨h.1 (by decide), fun hc => ?_⟩
  have := h.2.mp hc
  exact absurd this.1 (by decide)

/-- Claim C9: copy_write_then_read can only return Ok, RxBufferTooLong,
Transmit, or Receive (it never checks the source length or residency and
never consults the NACK flag), and its register trace never clears the
address-NACK flag. -/
theorem cwtr_result_range (addr : Nat) (txData : List Nat) (rdPtr : Nat)
    (rdData : List Nat) (easyDmaSize cap scratchPtr : Nat)
    (amounts : Nat → Nat) (rxResp : RxResp) :
    ((copy_write_then_read addr txData rdPtr rdData easyDmaSize cap scratchPtr
        amounts rxResp).2.1 = Except.ok () ∨
     (copy_write_then_read addr txData rdPtr rdData easyDmaSize cap scratchPtr
        amounts rxResp).2.1 = Except.error Error.RxBufferTooLong ∨
     (copy_write_then_read addr txData rdPtr rdData easyDmaSize cap scratchPtr
        amounts rxResp).2.1 = Except.error Error.Transmit ∨
     (copy_write_then_read addr txData rdPtr rdData easyDmaSize cap scratchPtr
        amounts rxResp).2.1 = Except.error Error.Receive) ∧
    RegAction.clearAnack ∉
      (copy_write_then_read addr txData rdPtr rdData easyDmaSize cap scratchPtr
        amounts rxResp).1 := by
  have hloop := cwtrChunkLoop_actions scratchPtr cap amounts
    (chunksOf cap txData) 0 (List.replicate cap 0)
  have hnl : RegAction.clearAnack ∉
      (cwtrChunkLoop scratchPtr cap amounts 0 (List.replicate cap 0)
        (chunksOf cap txData)).1 := by
    intro hmem
    rcases hloop _ hmem with h | h | h | h <;> simp at h
  constructor
  · unfold copy_write_then_read
    by_cases h0 : rdData.length > easyDmaSize
    · simp [h0]
    · by_cases hl : (cwtrChunkLoop scratchPtr cap amounts 0
          (List.replicate cap 0) (chunksOf cap txData)).2.1 = false
      · simp [h0, hl]
      · by_cases hb : rxResp.amount = rdData.length <;> simp [h0, hl, hb]
  · unfold copy_write_then_read
    by_cases h0 : rdData.length > easyDmaSize
    · simp [h0]
    · by_cases hl : (cwtrChunkLoop scratchPtr cap amounts 0
          (List.replicate cap 0) (chunksOf cap txData)).2.1 = false <;>
        simp [h0, hl, List.mem_append, hnl]

/-- Claim C8: after the pre-flight size check of copy_write_then_read
passes, the trace is the address write and the two receive-descriptor
writes, then the chunk-loop trace, then a tail; the loop trace holds only
transmit-descriptor writes, transmit starts and last-transmit event
clears, and no receive-descriptor register is written after the first
three actions. -/
theorem cwtr_rxd_programmed_once (addr : Nat) (txData : List Nat) (rdPtr : Nat)
    (rdData : List Nat) (easyDmaSize cap scratchPtr : Nat)
    (amounts : Nat → Nat) (rxResp : RxResp)
    (hd : rdData.length ≤ easyDmaSize) :
    (copy_write_then_read addr txData rdPtr rdData easyDmaSize cap scratchPtr
        amounts rxResp).1 =
      [RegAction.writeAddress addr, RegAction.writeRxdPtr rdPtr,
       RegAction.writeRxdMaxcnt rdData.length] ++
      (cwtrChunkLoop scratchPtr cap amounts 0 (List.replicate cap 0)
        (chunksOf cap txData)).1 ++
      (if (cwtrChunkLoop scratchPtr cap amounts 0 (List.replicate cap 0)
            (chunksOf cap txData)).2.1 = false then []
       else [RegAction.startRx, RegAction.clearEventLastRx, RegAction.stop,
             RegAction.clearEventStopped]) ∧
    (∀ a ∈ (cwtrChunkLoop scratchPtr cap amounts 0 (List.replicate cap 0)
        (chunksOf cap txData)).1,
      a = RegAction.writeTxdPtr scratchPtr ∨
      a = RegAction.writeTxdMaxcnt cap ∨ a = RegAction.startTx ∨
      a = RegAction.clearEventLastTx) ∧
    (∀ p : Nat,
      RegAction.writeRxdPtr p ∉
        (cwtrChunkLoop scratchPtr cap amounts 0 (List.replicate cap 0)
          (chunksOf cap txData)).1 ++
        (if (cwtrChunkLoop scratchPtr cap amounts 0 (List.replicate cap 0)
              (chunksOf cap txData)).2.1 = false then []
         else [RegAction.startRx, RegAction.clearEventLastRx, RegAction.stop,
               RegAction.clearEventStopped]) ∧
      RegAction.writeRxdMaxcnt p ∉
        (cwtrChunkLoop scratchPtr cap amounts 0 (List.replicate cap 0)
          (chunksOf cap txData)).1 ++
        (if (cwtrChunkLoop scratchPtr cap amounts 0 (List.replicate cap 0)
              (chunksOf cap txData)).2.1 = false then []
         else [RegAction.startRx, RegAction.clearEventLastRx, RegAction.stop,
               RegAction.clearEventStopped])) := by
  have hd2 : ¬ rdData.length > easyDmaSize := Nat.not_lt.mpr hd
  have hloop := cwtrChunkLoop_actions scratchPtr cap amounts
    (chunksOf cap txData) 0 (List.replicate cap 0)
  have hnp : ∀ p : Nat, RegAction.writeRxdPtr p ∉
      (cwtrChunkLoop scratchPtr cap amounts 0 (List.replicate cap 0)
        (chunksOf cap txData)).1 := by
    intro p hmem
    rcases hloop _ hmem with h | h | h | h <;> simp at h
  have hnm : ∀ p : Nat, RegAction.writeRxdMaxcnt p ∉
      (cwtrChunkLoop scratchPtr cap amounts 0 (List.replicate cap 0)
        (chunksOf cap txData)).1 := by
    intro p hmem
    rcases hloop _ hmem with h | h | h | h <;> simp at h
  refine ⟨?_, hloop, ?_⟩
  · unfold copy_write_then_read
    rw [if_neg hd2]
    by_cases hl : (cwtrChunkLoop scratchPtr cap amounts 0 (List.replicate cap 0)
        (chunksOf cap txData)).2.1 = false <;> simp [hl]
  · intro p
    by_cases hl : (cwtrChunkLoop scratchPtr cap amounts 0 (List.replicate cap 0)
        (chunksOf cap txData)).2.1 = false <;>
      exact ⟨by simp [hl, List.mem_append, hnp p],
             by simp [hl, List.mem_append, hnm p]⟩

/-- Claim C8 witness: a concrete three-byte source split into two chunks
against scratch capacity two, with the trace, the loop-action bound and
the absence of later receive-descriptor writes all instantiated. -/
theorem cwtr_rxd_programmed_once_witness :
    (copy_write_then_read 80 [1, 2, 3] 7 [0] 255 2 9 (fun _ => 2)
        ⟨false, 1, [4]⟩).1 =
      [RegAction.writeAddress 80, RegAction.writeRxdPtr 7,
       RegAction.writeRxdMaxcnt 1] ++
      (cwtrChunkLoop 9 2 (fun _ => 2) 0 (List.replicate 2 0)
        (chunksOf 2 [1, 2, 3])).1 ++
      (if (cwtrChunkLoop 9 2 (fun _ => 2) 0 (List.replicate 2 0)
            (chunksOf 2 [1, 2, 3])).2.1 = false then []
       else [RegAction.startRx, RegAction.clearEventLastRx, RegAction.stop,
             RegAction.clearEventStopped]) ∧
    (∀ a ∈ (cwtrChunkLoop 9 2 (fun _ => 2) 0 (List.replicate 2 0)
        (chunksOf 2 [1, 2, 3])).1,
      a = RegAction.writeTxdPtr 9 ∨
      a = RegAction.writeTxdMaxcnt 2 ∨ a = RegAction.startTx ∨
      a = RegAction.clearEventLastTx) ∧
    (∀ p : Nat,
      RegAction.writeRxdPtr p ∉
        (cwtrChunkLoop 9 2 (fun _ => 2) 0 (List.replicate 2 0)
          (chunksOf 2 [1, 2, 3])).1 ++
        (if (cwtrChunkLoop 9 2 (fun _ => 2) 0 (List.replicate 2 0)
              (chunksOf 2 [1, 2, 3])).2.1 = false then []
         else [RegAction.startRx, RegAction.clearEventLastRx, RegAction.stop,
               RegAction.clearEventStopped]) ∧
      RegAction.writeRxdMaxcnt p ∉
        (cwtrChunkLoop 9 2 (fun _ => 2) 0 (List.replicate 2 0)
          (chunksOf 2 [1, 2, 3])).1 ++
        (if (cwtrChunkLoop 9 2 (fun _ => 2) 0 (List.replicate 2 0)
              (chunksOf 2 [1, 2, 3])).2.1 = false then []
         else [RegAction.startRx, RegAction.clearEventLastRx, RegAction.stop,
               RegAction.clearEventStopped])) :=
  cwtr_rxd_programmed_once 80 [1, 2, 3] 7 [0] 255 2 9 (fun _ => 2)
    ⟨false, 1, [4]⟩ (by decide)

/-- The chunked fallback loop of the Write adapter equals one write call
per chunk, each on the chunk's bytes behind the scratch pointer: the copy
into buf followed by taking buf[..chunk.len()] always hands write exactly
the chunk. -/
theorem ehWriteGo_eq_writeSeq (addr sp easyDmaSize : Nat) (resps : Nat → TxResp)
    (l : List (List Nat)) : ∀ (i : Nat) (buf : List Nat),
    ehWriteGo addr sp easyDmaSize resps i buf l =
      writeSeq addr sp easyDmaSize resps i l := by
  induction l with
  | nil => intro i buf; rfl
  | cons chunk rest ih =>
    intro i buf
    simp only [ehWriteGo, writeSeq, List.take_left]
    cases hw : (write addr ⟨sp, chunk, true⟩ easyDmaSize (resps i)).2 with
    | error e => simp [hw]
    | ok u => simp [hw, ih]

/-- Claim C7: the generic read adapter always delegates to read; the
generic write adapter runs write directly on a RAM-resident buffer and
otherwise one write call per chunk of the source; the generic write-read
adapter runs write_then_read on a RAM-resident source and otherwise
copy_write_then_read, returning exactly that operation's result. -/
theorem adapter_dispatch (addr : Nat) (bytes : Buffer) (rdPtr : Nat)
    (rdData : List Nat) (easyDmaSize cap scratchPtr : Nat)
    (resps : Nat → TxResp) (txResp : TxResp) (amounts : Nat → Nat)
    (rxResp : RxResp) :
    ehRead addr rdPtr rdData easyDmaSize rxResp =
      read addr rdPtr rdData easyDmaSize rxResp ∧
    ehWrite addr bytes easyDmaSize cap scratchPtr resps =
      (if bytes.inRam then write addr bytes easyDmaSize (resps 0)
       else writeSeq addr scratchPtr easyDmaSize resps 0
         (chunksOf cap bytes.data)) ∧
    ehWriteRead addr bytes rdPtr rdData easyDmaSize cap scratchPtr txResp
        amounts rxResp =
      (if bytes.inRam then
        write_then_read addr bytes rdPtr rdData easyDmaSize txResp rxResp
       else
        copy_write_then_read addr bytes.data rdPtr rdData easyDmaSize cap
          scratchPtr amounts rxResp) := by
  refine ⟨rfl, ?_, rfl⟩
  unfold ehWrite
  split
  · rfl
  · exact ehWriteGo_eq_writeSeq addr scratchPtr easyDmaSize resps
      (chunksOf cap bytes.data) 0 (List.replicate cap 0)

end Twim







